import Mathlib

set_option autoImplicit false
set_option linter.unusedVariables false

namespace TripCraft

/-! Shallow embedding of the TripCraft coordination core.

The definitions below translate the Python source of the repository:
the multi-provider LLM manager (services/llm_manager.py), the resilient
fallback client (services/llm_client_fallback.py), the orchestrator agent
(agents/orchestrator.py), the websocket ConnectionManager and admission
check (api/realtime.py), and the realtime service (services/realtime_service.py).
Network calls are abstracted as outcome-valued parameters: each provider or
agent call is represented by the value it returns or the exception message
it raises, so the surrounding control flow can be translated literally. -/

/-! ### services/llm_manager.py -/

inductive Provider where
  | groq
  | gemini
  | ollama
deriving DecidableEq, Repr

def providerName : Provider → String
  | .groq => "groq"
  | .gemini => "gemini"
  | .ollama => "ollama"

/-- Outcome of one underlying provider helper call: the Python helper either
returns a string or raises an exception carrying a message. -/
inductive CallOutcome where
  | ok (content : String)
  | exn (msg : String)
deriving DecidableEq, Repr

structure LLMManagerState where
  last_successful_provider : Option Provider
deriving DecidableEq, Repr

/-- The fixed fallback order of LLMManager.generate_text. -/
def defaultProviders : List Provider := [.groq, .gemini, .ollama]

/-- The reordering at the top of generate_text: if last_successful_provider is
set and is in the provider list, it is removed and reinserted at the front. -/
def providerOrder (st : LLMManagerState) : List Provider :=
  match st.last_successful_provider with
  | some p => if p ∈ defaultProviders then p :: defaultProviders.erase p else defaultProviders
  | none => defaultProviders

structure GenerationResult where
  content : String
  provider : Option Provider
  success : Bool
  errors : List String
deriving DecidableEq, Repr

/-- The provider loop of LLMManager.generate_text. A raised exception appends
one formatted entry to errors and moves on; a returned string is a success
exactly when it is truthy (non-empty), in which case last_successful_provider
is updated and the loop returns at once; a falsy (empty) return moves on
without recording an error. Besides the result and the updated manager state,
the list of providers actually attempted is returned, for the trace
properties. -/
def generateLoop (outcomes : Provider → CallOutcome) (st : LLMManagerState) :
    List Provider → List String → GenerationResult × LLMManagerState × List Provider
  | [], errors =>
      ({ content := "", provider := none, success := false, errors := errors }, st, [])
  | p :: rest, errors =>
      match outcomes p with
      | .ok content =>
          if content = "" then
            let r := generateLoop outcomes st rest errors
            (r.1, r.2.1, p :: r.2.2)
          else
            ({ content := content, provider := some p, success := true, errors := errors },
             { last_successful_provider := some p }, [p])
      | .exn msg =>
          let r := generateLoop outcomes st rest (errors ++ [providerName p ++ " failed: " ++ msg])
          (r.1, r.2.1, p :: r.2.2)

/-- LLMManager.generate_text: run the loop over the sticky-reordered provider
list with an empty error accumulator. The function is total: every provider
outcome is absorbed into the returned GenerationResult, so the embedded
generate never raises to its caller. -/
def generate_text (outcomes : Provider → CallOutcome) (st : LLMManagerState) :
    GenerationResult × LLMManagerState × List Provider :=
  generateLoop outcomes st (providerOrder st) []

theorem providerOrder_sticky (p : Provider) :
    providerOrder { last_successful_provider := some p } = p :: defaultProviders.erase p := by
  cases p <;> rfl

theorem generateLoop_head_attempt (oc : Provider → CallOutcome) (st : LLMManagerState)
    (p : Provider) (rest : List Provider) (errors : List String) :
    ((generateLoop oc st (p :: rest) errors).2.2).head? = some p := by
  cases h : oc p with
  | ok c =>
      by_cases hc : c = "" <;> simp [generateLoop, h, hc]
  | exn m =>
      simp [generateLoop, h]

theorem generateLoop_success_state (oc : Provider → CallOutcome) (st : LLMManagerState) :
    ∀ (ps : List Provider) (errors : List String),
      ((generateLoop oc st ps errors).1).success = true →
      ∃ q, ((generateLoop oc st ps errors).1).provider = some q ∧
        (generateLoop oc st ps errors).2.1 = { last_successful_provider := some q }
  | [], errors => by
      intro h
      simp [generateLoop] at h
  | p :: rest, errors => by
      intro h
      cases hoc : oc p with
      | ok c =>
          by_cases hc : c = ""
          · simp only [generateLoop, hoc, hc, if_pos rfl] at h ⊢
            exact generateLoop_success_state oc st rest errors h
          · simp only [generateLoop, hoc, if_neg hc]
            exact ⟨p, rfl, rfl⟩
      | exn m =>
          simp only [generateLoop, hoc] at h ⊢
          exact generateLoop_success_state oc st rest _ h

/-- C1. Sticky provider ordering: if a generate_text call succeeds with
provider p, the manager state records p as last_successful_provider, and the
next generate_text call on the resulting state attempts p first, whatever the
outcomes of that next call are. -/
theorem sticky_provider_ordering (oc1 oc2 : Provider → CallOutcome)
    (st : LLMManagerState) (p : Provider)
    (hs : ((generate_text oc1 st).1).success = true)
    (hp : ((generate_text oc1 st).1).provider = some p) :
    ((generate_text oc1 st).2.1).last_successful_provider = some p ∧
    ((generate_text oc2 ((generate_text oc1 st).2.1)).2.2).head? = some p := by
  simp only [generate_text] at hs hp ⊢
  obtain ⟨q, hq, hstate⟩ := generateLoop_success_state oc1 st (providerOrder st) [] hs
  rw [hq] at hp
  injection hp with hpq
  subst hpq
  refine ⟨by rw [hstate], ?_⟩
  rw [hstate, providerOrder_sticky]
  exact generateLoop_head_attempt oc2 _ _ _ []

/-- Witness for C1 at a concrete input: all providers return "hi", so the
first call succeeds with groq; the sticky pointer is groq and the second call
attempts groq first. -/
theorem sticky_provider_ordering_witness :
    ((generate_text (fun _ => CallOutcome.ok "hi")
        { last_successful_provider := none }).2.1).last_successful_provider =
      some Provider.groq ∧
    ((generate_text (fun _ => CallOutcome.exn "down")
        ((generate_text (fun _ => CallOutcome.ok "hi")
          { last_successful_provider := none }).2.1)).2.2).head? = some Provider.groq :=
  sticky_provider_ordering _ _ _ Provider.groq (by decide) (by decide)

theorem generateLoop_all_exn (oc : Provider → CallOutcome) (msgs : Provider → String)
    (h : ∀ p, oc p = .exn (msgs p)) (st : LLMManagerState) :
    ∀ (ps : List Provider) (errors : List String),
      generateLoop oc st ps errors =
        ({ content := "", provider := none, success := false,
           errors := errors ++ ps.map (fun p => providerName p ++ " failed: " ++ msgs p) },
         st, ps)
  | [], errors => by simp [generateLoop]
  | p :: rest, errors => by
      simp only [generateLoop, h p, generateLoop_all_exn oc msgs h st rest
        (errors ++ [providerName p ++ " failed: " ++ msgs p])]
      simp

/-- C3. Exhaustion result: if every provider raises, generate_text returns
(rather than throws) success = false with no provider, and the errors list
has exactly one formatted entry per attempted provider, in attempt order
(the attempted providers being exactly the sticky-reordered provider list). -/
theorem generate_all_fail_errors (oc : Provider → CallOutcome)
    (msgs : Provider → String) (st : LLMManagerState)
    (h : ∀ p, oc p = .exn (msgs p)) :
    ((generate_text oc st).1).success = false ∧
    ((generate_text oc st).1).provider = none ∧
    (generate_text oc st).2.2 = providerOrder st ∧
    ((generate_text oc st).1).errors =
      (providerOrder st).map (fun p => providerName p ++ " failed: " ++ msgs p) := by
  rw [generate_text, generateLoop_all_exn oc msgs h st (providerOrder st) []]
  simp

/-- Witness for C3 at a concrete input: every provider raises "boom"; the
errors list names each of groq, gemini, ollama once, in attempt order. -/
theorem generate_all_fail_errors_witness :
    ((generate_text (fun _ => CallOutcome.exn "boom")
        { last_successful_provider := none }).1).success = false ∧
    ((generate_text (fun _ => CallOutcome.exn "boom")
        { last_successful_provider := none }).1).provider = none ∧
    (generate_text (fun _ => CallOutcome.exn "boom")
        { last_successful_provider := none }).2.2 =
      providerOrder { last_successful_provider := none } ∧
    ((generate_text (fun _ => CallOutcome.exn "boom")
        { last_successful_provider := none }).1).errors =
      (providerOrder { last_successful_provider := none }).map
        (fun p => providerName p ++ " failed: " ++ (fun _ => "boom") p) :=
  generate_all_fail_errors _ (fun _ => "boom") _ (fun _ => rfl)

theorem generateLoop_attempts_sublist (oc : Provider → CallOutcome) (st : LLMManagerState) :
    ∀ (ps : List Provider) (errors : List String),
      List.Sublist (generateLoop oc st ps errors).2.2 ps
  | [], errors => by simp [generateLoop]
  | p :: rest, errors => by
      cases h : oc p with
      | ok c =>
          by_cases hc : c = ""
          · simp only [generateLoop, h, hc, if_pos rfl]
            exact List.Sublist.cons₂ p (generateLoop_attempts_sublist oc st rest errors)
          · simp only [generateLoop, h, if_neg hc]
            exact List.Sublist.cons₂ p (List.nil_sublist rest)
      | exn m =>
          simp only [generateLoop, h]
          exact List.Sublist.cons₂ p (generateLoop_attempts_sublist oc st rest _)

theorem providerOrder_count_le_one (st : LLMManagerState) (p : Provider) :
    (providerOrder st).count p ≤ 1 := by
  rcases st with ⟨_ | q⟩
  · cases p <;> decide
  · cases q <;> cases p <;> decide

/-! ### services/llm_client_fallback.py -/

/-- The tenacity retry decorator on LLMClientFallback._call_ollama, with
stop_after_attempt(3): the wrapped call is attempted up to three times (any
exception triggers another attempt; the exponential backoff between attempts
has no functional effect), and the third failure propagates to the caller.
The argument gives the outcome of each numbered attempt; the result is paired
with the number of attempts actually made. -/
def call_ollama_with_retry (attemptOutcome : Nat → CallOutcome) : CallOutcome × Nat :=
  match attemptOutcome 1 with
  | .ok s => (.ok s, 1)
  | .exn _ =>
      match attemptOutcome 2 with
      | .ok s => (.ok s, 2)
      | .exn _ =>
          match attemptOutcome 3 with
          | .ok s => (.ok s, 3)
          | .exn m => (.exn m, 3)

/-- Concrete outcome assignment in which groq times out and gemini succeeds. -/
def timeoutOutcomes : Provider → CallOutcome
  | .groq => .exn "Request timed out"
  | .gemini => .ok "plan text"
  | .ollama => .exn "unreachable"

/-- C7 counterexample: in LLMManager.generate_text a provider attempt that
fails with a timeout is NOT retried on the same provider: with groq timing
out and gemini succeeding, the attempt trace is [groq, gemini] — groq is
attempted exactly once and the very next attempt is on a different provider,
so no per-provider retry happens in the manager. -/
theorem manager_single_attempt_counterexample :
    (generate_text timeoutOutcomes { last_successful_provider := none }).2.2 =
      [Provider.groq, Provider.gemini] ∧
    ((generate_text timeoutOutcomes { last_successful_provider := none }).2.2).count
      Provider.groq = 1 ∧
    ((generate_text timeoutOutcomes { last_successful_provider := none }).1).provider =
      some Provider.gemini := by
  decide

/-- C7 amended: the multi-provider manager attempts each provider at most
once per generate_text call; only the fallback client's Ollama backend
retries, up to three attempts (on any failure, with exponential backoff
between attempts), returning the first success — in particular a first-attempt
failure followed by a second-attempt success yields that success after
exactly two attempts on the same backend. -/
theorem per_provider_retry_amended :
    (∀ (oc : Provider → CallOutcome) (st : LLMManagerState) (p : Provider),
      ((generate_text oc st).2.2).count p ≤ 1) ∧
    (∀ ao : Nat → CallOutcome, (call_ollama_with_retry ao).2 ≤ 3) ∧
    (∀ (ao : Nat → CallOutcome) (m s : String),
      ao 1 = .exn m → ao 2 = .ok s → call_ollama_with_retry ao = (.ok s, 2)) := by
  refine ⟨?_, ?_, ?_⟩
  · intro oc st p
    have hsub := generateLoop_attempts_sublist oc st (providerOrder st) []
    exact le_trans (hsub.count_le p) (providerOrder_count_le_one st p)
  · intro ao
    cases h1 : ao 1 with
    | ok s => simp [call_ollama_with_retry, h1]
    | exn m1 =>
        cases h2 : ao 2 with
        | ok s => simp [call_ollama_with_retry, h1, h2]
        | exn m2 => cases h3 : ao 3 <;> simp [call_ollama_with_retry, h1, h2, h3]
  · intro ao m s h1 h2
    simp [call_ollama_with_retry, h1, h2]

/-- Concrete attempt outcomes: the first attempt raises, later ones succeed. -/
def retryAttemptOutcome : Nat → CallOutcome :=
  fun n => if n = 1 then .exn "transport error" else .ok "y"

/-- Witness for C7 amended at concrete inputs. -/
theorem per_provider_retry_amended_witness :
    ((generate_text timeoutOutcomes { last_successful_provider := none }).2.2).count
      Provider.groq ≤ 1 ∧
    (call_ollama_with_retry retryAttemptOutcome).2 ≤ 3 ∧
    call_ollama_with_retry retryAttemptOutcome = (.ok "y", 2) :=
  ⟨per_provider_retry_amended.1 timeoutOutcomes { last_successful_provider := none }
      Provider.groq,
   per_provider_retry_amended.2.1 retryAttemptOutcome,
   per_provider_retry_amended.2.2 retryAttemptOutcome "transport error" "y" rfl rfl⟩

/-! ### LLMManager._call_groq and _call_gemini response handling -/

structure GroqChoice where
  content : String
  finish_reason : Option String
deriving DecidableEq, Repr

structure GroqResponse where
  choices : List GroqChoice
deriving DecidableEq, Repr

/-- The string appended by _call_groq when finish_reason is "length". -/
def truncationNotice : String := "\n[Response truncated - continuing with fallback...]"

/-- Embedding of LLMManager._call_groq on a parsed HTTP 200 response body
(transport and HTTP-status failures are outcomes produced before this point):
missing key raises, an empty choices list raises, and a "length" finish
reason returns the content with the truncation notice appended; otherwise
the content is returned as-is. -/
def call_groq (apiKeyConfigured : Bool) (resp : GroqResponse) : CallOutcome :=
  if apiKeyConfigured = false then .exn "Groq API key not configured"
  else
    match resp.choices with
    | [] => .exn "Invalid response format from Groq"
    | choice :: _ =>
        if choice.finish_reason = some "length" then
          .ok (choice.content ++ truncationNotice)
        else .ok choice.content

structure GeminiCandidate where
  finishReason : Option String
  text : Option String
deriving DecidableEq, Repr

/-- Embedding of LLMManager._call_gemini on a parsed response body: SAFETY
and RECITATION finish reasons raise, a MAX_TOKENS finish reason only logs a
warning and the candidate's text is returned unmodified. -/
def call_gemini (apiKeyConfigured : Bool) (candidates : List GeminiCandidate) : CallOutcome :=
  if apiKeyConfigured = false then .exn "Google API key not configured"
  else
    match candidates with
    | [] => .exn "No candidates in Gemini response"
    | c :: _ =>
        if c.finishReason = some "SAFETY" ∨ c.finishReason = some "RECITATION" then
          .exn "Gemini blocked generation"
        else
          match c.text with
          | some t => .ok t
          | none => .exn "Invalid content structure from Gemini"

theorem append_truncation_ne_empty (c : String) : c ++ truncationNotice ≠ "" := by
  intro h
  have hd : c.data ++ truncationNotice.data = ([] : List Char) := congrArg String.data h
  rcases List.append_eq_nil.mp hd with ⟨_, h2⟩
  exact absurd h2 (by decide)

/-- Outcomes in which groq returns a length-truncated response "abc". -/
def groqTruncatedOutcomes : Provider → CallOutcome
  | .groq => call_groq true { choices := [{ content := "abc", finish_reason := some "length" }] }
  | .gemini => .exn "not configured"
  | .ollama => .exn "not running"

/-- C8 counterexample: a groq response flagged as length-truncated is treated
as a success and no fallback occurs, but the content is NOT returned as-is:
_call_groq appends a truncation notice, so the result content differs from
the provider's content "abc". -/
theorem groq_truncation_marker_counterexample :
    ((generate_text groqTruncatedOutcomes { last_successful_provider := none }).1).success =
      true ∧
    ((generate_text groqTruncatedOutcomes { last_successful_provider := none }).1).provider =
      some Provider.groq ∧
    (generate_text groqTruncatedOutcomes { last_successful_provider := none }).2.2 =
      [Provider.groq] ∧
    ((generate_text groqTruncatedOutcomes { last_successful_provider := none }).1).content ≠
      "abc" ∧
    ((generate_text groqTruncatedOutcomes { last_successful_provider := none }).1).content =
      "abc" ++ truncationNotice := by
  decide

/-- C8 amended: a length-truncated provider response is still treated as a
usable success — the result has success = true with that provider and no
fallback to another provider occurs — where Gemini returns the truncated
content as-is but Groq returns it with a truncation notice appended. -/
theorem truncation_is_success_amended (c : String) (oc : Provider → CallOutcome)
    (hg : oc .groq =
      call_groq true { choices := [{ content := c, finish_reason := some "length" }] }) :
    ((generate_text oc { last_successful_provider := none }).1).success = true ∧
    ((generate_text oc { last_successful_provider := none }).1).provider =
      some Provider.groq ∧
    ((generate_text oc { last_successful_provider := none }).1).content =
      c ++ truncationNotice ∧
    (generate_text oc { last_successful_provider := none }).2.2 = [Provider.groq] ∧
    (∀ t : String,
      call_gemini true [{ finishReason := some "MAX_TOKENS", text := some t }] = .ok t) := by
  have hoc : oc .groq = .ok (c ++ truncationNotice) := by rw [hg]; rfl
  have horder : providerOrder { last_successful_provider := none } =
      [.groq, .gemini, .ollama] := rfl
  simp only [generate_text, horder, generateLoop, hoc,
    if_neg (append_truncation_ne_empty c)]
  exact ⟨trivial, trivial, trivial, trivial, fun t => rfl⟩

/-- Witness for C8 amended at a concrete input. -/
theorem truncation_is_success_amended_witness :
    ((generate_text groqTruncatedOutcomes { last_successful_provider := none }).1).success =
      true ∧
    ((generate_text groqTruncatedOutcomes { last_successful_provider := none }).1).provider =
      some Provider.groq ∧
    ((generate_text groqTruncatedOutcomes { last_successful_provider := none }).1).content =
      "abc" ++ truncationNotice ∧
    (generate_text groqTruncatedOutcomes { last_successful_provider := none }).2.2 =
      [Provider.groq] ∧
    (∀ t : String,
      call_gemini true [{ finishReason := some "MAX_TOKENS", text := some t }] = .ok t) :=
  truncation_is_success_amended "abc" groqTruncatedOutcomes rfl

/-! ### agents/orchestrator.py -/

/-- A value stored in the orchestrator's results map: a normal fragment, or
the error-marker dict produced when _execute_agent catches an exception or
reports a missing agent. -/
inductive Payload where
  | fragment (data : String)
  | errorPayload (msg : String)
deriving DecidableEq, Repr

/-- Behavior of one registered agent's execute coroutine: it either raises
an exception or returns a payload (which itself may be an error dict). -/
inductive AgentBehavior where
  | throws (msg : String)
  | returns (p : Payload)
deriving DecidableEq, Repr

/-- The agents dict of OrchestratorAgent together with the behavior of each
agent's execute call (abstracting the network work each agent performs). -/
structure AgentRegistry where
  registered : List String
  behavior : String → AgentBehavior

/-- OrchestratorAgent._execute_agent: runs the agent if registered, wraps a
missing agent or a raised exception into an error-marker payload, and never
raises itself (the try/except covers the whole body, so a gather over these
coroutines with return_exceptions=True never sees an Exception value). -/
def execute_agent (cfg : AgentRegistry) (agentType : String) : Payload :=
  if cfg.registered.contains agentType then
    match cfg.behavior agentType with
    | .throws msg => .errorPayload msg
    | .returns p => p
  else .errorPayload ("Agent " ++ agentType ++ " not found")

/-- The fixed agent_names list used to key the gathered Phase-1 results. -/
def agent_names : List String := ["destination", "transport", "accommodation", "dining"]

/-- The Phase-1 workers actually scheduled: core_tasks is built by appending
one task per registered core agent, in the fixed order of agent_names. -/
def scheduledCore (cfg : AgentRegistry) : List String :=
  agent_names.filter (fun a => cfg.registered.contains a)

/-- The Phase-1 join of OrchestratorAgent.execute: the gathered results (one
per scheduled core agent, in schedule order) are assigned to the keys
agent_names[i] by position — the i-th gathered result is stored under the
i-th fixed name, whether or not that name is the agent that produced it. -/
def coreResults (cfg : AgentRegistry) : List (String × Payload) :=
  agent_names.zip ((scheduledCore cfg).map (execute_agent cfg))

structure PlanRequest where
  include_audio_tour : Bool
deriving DecidableEq, Repr

/-- OrchestratorAgent.execute, result-map assembly: the Phase-1 join followed
by the sequential dependent agents (budget always when registered, audio_tour
only when registered and requested). The embedding is total, mirroring that
execute's per-agent failures are all absorbed into error-marker entries. -/
def orchestrate_execute (cfg : AgentRegistry) (req : PlanRequest) : List (String × Payload) :=
  let core := coreResults cfg
  let withBudget :=
    if cfg.registered.contains "budget" then
      core ++ [("budget", execute_agent cfg "budget")]
    else core
  if cfg.registered.contains "audio_tour" && req.include_audio_tour then
    withBudget ++ [("audio_tour", execute_agent cfg "audio_tour")]
  else withBudget

def isFragment : Payload → Bool
  | .fragment _ => true
  | .errorPayload _ => false

/-- A registry in which only the transport agent is registered, and it
succeeds with a fragment. -/
def transportOnlyRegistry : AgentRegistry :=
  { registered := ["transport"], behavior := fun _ => .returns (.fragment "transport plan") }

/-- C2 counterexample: with only the transport worker registered (and
succeeding), the scheduled Phase-1 workers are exactly [transport], yet the
joined result map keys are ["destination"]: it holds no entry for the
scheduled worker transport and instead an entry for the unscheduled worker
destination, because the gathered results are zipped against the fixed
agent_names list. So the map does not contain one entry per worker that was
scheduled to run. -/
theorem orchestrator_subset_keys_misaligned :
    scheduledCore transportOnlyRegistry = ["transport"] ∧
    (orchestrate_execute transportOnlyRegistry { include_audio_tour := false }).map
      Prod.fst = ["destination"] ∧
    "transport" ∉
      (orchestrate_execute transportOnlyRegistry { include_audio_tour := false }).map
        Prod.fst := by
  decide

/-- C2 amended: when every Phase-1 worker of agent_names is registered (so
the zip is aligned), a run in which exactly one Phase-1 worker throws and
the other three return fragments yields a result map with exactly one entry
per scheduled worker, keyed by agent_names: 4 entries, 3 fragments and 1
error marker, and the (total) orchestrator embedding returns this map rather
than raising. With only a subset registered, the counts still hold but the
i-th scheduled worker's result is stored under the i-th fixed name. -/
theorem orchestrator_core_result_map (b : String → AgentBehavior) (t : String)
    (ht : t ∈ agent_names) (m : String) (frag : String → String)
    (hthrow : b t = .throws m)
    (hok : ∀ a, a ∈ agent_names → a ≠ t → b a = .returns (.fragment (frag a)))
    (req : PlanRequest) :
    (orchestrate_execute { registered := agent_names, behavior := b } req).map
      Prod.fst = agent_names ∧
    (orchestrate_execute { registered := agent_names, behavior := b } req).length = 4 ∧
    ((orchestrate_execute { registered := agent_names, behavior := b } req).filter
      (fun e => isFragment e.2)).length = 3 ∧
    ((orchestrate_execute { registered := agent_names, behavior := b } req).filter
      (fun e => !isFragment e.2)).length = 1 := by
  have hexec : orchestrate_execute { registered := agent_names, behavior := b } req =
      [("destination", execute_agent { registered := agent_names, behavior := b } "destination"),
       ("transport", execute_agent { registered := agent_names, behavior := b } "transport"),
       ("accommodation", execute_agent { registered := agent_names, behavior := b } "accommodation"),
       ("dining", execute_agent { registered := agent_names, behavior := b } "dining")] := rfl
  have hrun : ∀ a, a ∈ agent_names →
      execute_agent { registered := agent_names, behavior := b } a =
        match b a with
        | .throws msg => .errorPayload msg
        | .returns p => p := by
    intro a ha
    have hc : agent_names.contains a = true := List.elem_eq_true_of_mem ha
    simp [execute_agent, hc, ha]
  simp only [agent_names, List.mem_cons, List.not_mem_nil, or_false] at ht
  rcases ht with rfl | rfl | rfl | rfl <;>
  · have h1 := hrun "destination" (by decide)
    have h2 := hrun "transport" (by decide)
    have h3 := hrun "accommodation" (by decide)
    have h4 := hrun "dining" (by decide)
    rw [hexec, h1, h2, h3, h4, hthrow]
    first
    | (rw [hok "transport" (by decide) (by decide),
        hok "accommodation" (by decide) (by decide),
        hok "dining" (by decide) (by decide)]
       exact ⟨rfl, rfl, rfl, rfl⟩)
    | (rw [hok "destination" (by decide) (by decide),
        hok "accommodation" (by decide) (by decide),
        hok "dining" (by decide) (by decide)]
       exact ⟨rfl, rfl, rfl, rfl⟩)
    | (rw [hok "destination" (by decide) (by decide),
        hok "transport" (by decide) (by decide),
        hok "dining" (by decide) (by decide)]
       exact ⟨rfl, rfl, rfl, rfl⟩)
    | (rw [hok "destination" (by decide) (by decide),
        hok "transport" (by decide) (by decide),
        hok "accommodation" (by decide) (by decide)]
       exact ⟨rfl, rfl, rfl, rfl⟩)

/-- Behavior in which the transport worker throws and the rest succeed. -/
def oneThrowBehavior : String → AgentBehavior :=
  fun a => if a = "transport" then .throws "boom" else .returns (.fragment "f")

/-- Witness for C2 amended at a concrete input: all four Phase-1 workers
registered, transport throws, the others return fragments. -/
theorem orchestrator_core_result_map_witness :
    (orchestrate_execute { registered := agent_names, behavior := oneThrowBehavior }
      { include_audio_tour := false }).map Prod.fst = agent_names ∧
    (orchestrate_execute { registered := agent_names, behavior := oneThrowBehavior }
      { include_audio_tour := false }).length = 4 ∧
    ((orchestrate_execute { registered := agent_names, behavior := oneThrowBehavior }
      { include_audio_tour := false }).filter (fun e => isFragment e.2)).length = 3 ∧
    ((orchestrate_execute { registered := agent_names, behavior := oneThrowBehavior }
      { include_audio_tour := false }).filter (fun e => !isFragment e.2)).length = 1 :=
  orchestrator_core_result_map oneThrowBehavior "transport" (by decide) "boom"
    (fun _ => "f") (by decide) (by decide) { include_audio_tour := false }

/-! ### api/realtime.py ConnectionManager and websocket admission -/

/-- Assignment into the active_connections dict: replace the value of an
existing key in place, or append a fresh entry. -/
def setEntry : List (String × Nat) → String → Nat → List (String × Nat)
  | [], k, v => [(k, v)]
  | (k', v') :: rest, k, v =>
      if k' = k then (k, v) :: rest else (k', v') :: setEntry rest k v

/-- Dict lookup on active_connections. -/
def lookupEntry : List (String × Nat) → String → Option Nat
  | [], _ => none
  | (k', v') :: rest, k => if k' = k then some v' else lookupEntry rest k

/-- Dict deletion on active_connections. -/
def removeEntry : List (String × Nat) → String → List (String × Nat)
  | [], _ => []
  | (k', v') :: rest, k => if k' = k then removeEntry rest k else (k', v') :: removeEntry rest k

/-- State of ConnectionManager: the session-to-handle dict (handles are
abstract websocket identifiers) and the connection_count counter. -/
structure ConnState where
  active_connections : List (String × Nat)
  connection_count : Int
deriving DecidableEq, Repr

def initConnState : ConnState := { active_connections := [], connection_count := 0 }

/-- ConnectionManager.connect: if a connection already exists for the trip it
is closed (the evicted handle is returned; a failure of the close call is
swallowed), then the new handle is installed under the trip key and the
counter is incremented unconditionally. -/
def connect (st : ConnState) (trip : String) (ws : Nat) : ConnState × Option Nat :=
  ({ active_connections := setEntry st.active_connections trip ws,
     connection_count := st.connection_count + 1 },
   lookupEntry st.active_connections trip)

/-- ConnectionManager.disconnect: remove the trip's entry if present and
decrement the counter, clamped at zero; otherwise do nothing. -/
def disconnect (st : ConnState) (trip : String) : ConnState :=
  if (lookupEntry st.active_connections trip).isSome then
    { active_connections := removeEntry st.active_connections trip,
      connection_count := max 0 (st.connection_count - 1) }
  else st

inductive SubscribeOutcome where
  | rejectedTooMany
  | accepted (evicted : Option Nat)
deriving DecidableEq, Repr

/-- The global limit checked by websocket_endpoint before connecting. -/
def maxConnections : Nat := 50

/-- The admission check of websocket_endpoint: when the dict already holds
maxConnections entries the socket is closed with the distinct
"Too many connections" close outcome and nothing is registered; otherwise
the manager's connect runs. -/
def subscribe (st : ConnState) (trip : String) (ws : Nat) : ConnState × SubscribeOutcome :=
  if maxConnections ≤ st.active_connections.length then (st, .rejectedTooMany)
  else
    ((connect st trip ws).1, .accepted (connect st trip ws).2)

inductive ConnOp where
  | sub (trip : String) (ws : Nat)
  | disc (trip : String)

def applyConnOp (st : ConnState) : ConnOp → ConnState
  | .sub t w => (subscribe st t w).1
  | .disc t => disconnect st t

/-- Run a sequence of subscribe/disconnect operations from the initial
(empty) manager state. -/
def runConnOps (ops : List ConnOp) : ConnState :=
  ops.foldl applyConnOp initConnState

structure ConnStats where
  total_connections : Int
  active_trips : List String
deriving DecidableEq, Repr

/-- ConnectionManager.get_connection_stats. -/
def get_connection_stats (st : ConnState) : ConnStats :=
  { total_connections := st.connection_count,
    active_trips := st.active_connections.map Prod.fst }

/-- Number of entries held for one session key. -/
def countKey (l : List (String × Nat)) (s : String) : Nat :=
  (l.map Prod.fst).count s

theorem lookupEntry_setEntry_same (l : List (String × Nat)) (k : String) (v : Nat) :
    lookupEntry (setEntry l k v) k = some v := by
  induction l with
  | nil => simp [setEntry, lookupEntry]
  | cons e rest ih =>
      by_cases h : e.1 = k
      · simp [setEntry, lookupEntry, h]
      · simp [setEntry, lookupEntry, h, ih]

theorem mem_keys_setEntry (l : List (String × Nat)) (k : String) (v : Nat) (a : String) :
    a ∈ (setEntry l k v).map Prod.fst ↔ a ∈ l.map Prod.fst ∨ a = k := by
  induction l with
  | nil => simp [setEntry]
  | cons e rest ih =>
      by_cases h : e.1 = k
      · subst h
        simp [setEntry]
        tauto
      · simp [setEntry, h, ih]
        tauto

theorem keys_nodup_setEntry (l : List (String × Nat)) (k : String) (v : Nat)
    (h : (l.map Prod.fst).Nodup) : ((setEntry l k v).map Prod.fst).Nodup := by
  induction l with
  | nil => simp [setEntry]
  | cons e rest ih =>
      simp only [List.map_cons, List.nodup_cons] at h
      by_cases hk : e.1 = k
      · simp only [setEntry, if_pos hk, List.map_cons, List.nodup_cons]
        exact ⟨hk ▸ h.1, h.2⟩
      · simp only [setEntry, if_neg hk, List.map_cons, List.nodup_cons]
        refine ⟨?_, ih h.2⟩
        intro hmem
        rcases (mem_keys_setEntry rest k v e.1).mp hmem with hm | he
        · exact h.1 hm
        · exact hk he

theorem removeEntry_sublist (l : List (String × Nat)) (k : String) :
    List.Sublist (removeEntry l k) l := by
  induction l with
  | nil => simp [removeEntry]
  | cons e rest ih =>
      by_cases h : e.1 = k
      · simpa [removeEntry, h] using ih.cons e
      · simpa [removeEntry, h] using ih.cons₂ e

theorem keys_nodup_removeEntry (l : List (String × Nat)) (k : String)
    (h : (l.map Prod.fst).Nodup) : ((removeEntry l k).map Prod.fst).Nodup :=
  List.Nodup.sublist (List.Sublist.map Prod.fst (removeEntry_sublist l k)) h

theorem keys_nodup_applyConnOp (st : ConnState) (op : ConnOp)
    (h : (st.active_connections.map Prod.fst).Nodup) :
    ((applyConnOp st op).active_connections.map Prod.fst).Nodup := by
  cases op with
  | sub t w =>
      simp only [applyConnOp, subscribe]
      by_cases hcap : maxConnections ≤ st.active_connections.length
      · simpa [hcap] using h
      · simpa [hcap, connect] using keys_nodup_setEntry st.active_connections t w h
  | disc t =>
      simp only [applyConnOp, disconnect]
      by_cases hm : (lookupEntry st.active_connections t).isSome
      · simpa [hm] using keys_nodup_removeEntry st.active_connections t h
      · simpa [hm] using h

theorem keys_nodup_foldl (ops : List ConnOp) :
    ∀ st : ConnState, (st.active_connections.map Prod.fst).Nodup →
      ((ops.foldl applyConnOp st).active_connections.map Prod.fst).Nodup := by
  induction ops with
  | nil => intro st h; simpa using h
  | cons op rest ih =>
      intro st h
      exact ih (applyConnOp st op) (keys_nodup_applyConnOp st op h)

theorem keys_nodup_runConnOps (ops : List ConnOp) :
    ((runConnOps ops).active_connections.map Prod.fst).Nodup :=
  keys_nodup_foldl ops initConnState (by simp [initConnState])

theorem countKey_le_one_of_nodup (l : List (String × Nat))
    (h : (l.map Prod.fst).Nodup) (s : String) : countKey l s ≤ 1 :=
  List.nodup_iff_count_le_one.mp h s

theorem mem_keys_of_lookup (l : List (String × Nat)) (k : String) (v : Nat)
    (h : lookupEntry l k = some v) : k ∈ l.map Prod.fst := by
  induction l with
  | nil => simp [lookupEntry] at h
  | cons e rest ih =>
      by_cases he : e.1 = k
      · simp [he]
      · simp only [lookupEntry, if_neg he] at h
        simp [ih h]

/-- C4. Single-connection-per-session eviction, on the cited
ConnectionManager.connect: a second connect for the same trip returns the
first handle as the evicted (closed) one, installs the second handle as the
single live connection for the trip, and across any operation sequence from
the initial state every session holds at most one connection. -/
theorem single_connection_per_session (st : ConnState) (t : String) (w1 w2 : Nat)
    (h : (st.active_connections.map Prod.fst).Nodup) :
    (connect (connect st t w1).1 t w2).2 = some w1 ∧
    lookupEntry ((connect (connect st t w1).1 t w2).1).active_connections t = some w2 ∧
    countKey ((connect (connect st t w1).1 t w2).1).active_connections t = 1 ∧
    (∀ (ops : List ConnOp) (s : String),
      countKey (runConnOps ops).active_connections s ≤ 1) := by
  refine ⟨?_, ?_, ?_, ?_⟩
  · simp [connect, lookupEntry_setEntry_same]
  · simp [connect, lookupEntry_setEntry_same]
  · have hn2 : (((connect (connect st t w1).1 t w2).1).active_connections.map
        Prod.fst).Nodup := by
      simp only [connect]
      exact keys_nodup_setEntry _ t w2 (keys_nodup_setEntry _ t w1 h)
    have hmem : t ∈ ((connect (connect st t w1).1 t w2).1).active_connections.map
        Prod.fst := by
      simp only [connect]
      exact (mem_keys_setEntry _ t w2 t).mpr (Or.inr rfl)
    have hle := countKey_le_one_of_nodup _ hn2 t
    have hge : 1 ≤ countKey ((connect (connect st t w1).1 t w2).1).active_connections t :=
      List.count_pos_iff.mpr hmem
    omega
  · intro ops s
    exact countKey_le_one_of_nodup _ (keys_nodup_runConnOps ops) s

/-- Witness for C4 at a concrete input: two connects for trip "t1" from the
empty state. -/
theorem single_connection_per_session_witness :
    (connect (connect initConnState "t1" 1).1 "t1" 2).2 = some 1 ∧
    lookupEntry ((connect (connect initConnState "t1" 1).1 "t1" 2).1).active_connections
      "t1" = some 2 ∧
    countKey ((connect (connect initConnState "t1" 1).1 "t1" 2).1).active_connections
      "t1" = 1 ∧
    countKey (runConnOps [ConnOp.sub "a" 1, ConnOp.sub "a" 2]).active_connections "a" ≤ 1 :=
  ⟨(single_connection_per_session initConnState "t1" 1 2 (by decide)).1,
   (single_connection_per_session initConnState "t1" 1 2 (by decide)).2.1,
   (single_connection_per_session initConnState "t1" 1 2 (by decide)).2.2.1,
   (single_connection_per_session initConnState "t1" 1 2 (by decide)).2.2.2
     [ConnOp.sub "a" 1, ConnOp.sub "a" 2] "a"⟩

theorem setEntry_length_le (l : List (String × Nat)) (k : String) (v : Nat) :
    (setEntry l k v).length ≤ l.length + 1 := by
  induction l with
  | nil => simp [setEntry]
  | cons e rest ih =>
      by_cases h : e.1 = k
      · simp [setEntry, h]
      · simp only [setEntry, if_neg h, List.length_cons]
        omega

theorem conn_length_le_foldl (ops : List ConnOp) :
    ∀ st : ConnState, st.active_connections.length ≤ maxConnections →
      ((ops.foldl applyConnOp st).active_connections.length ≤ maxConnections) := by
  induction ops with
  | nil => intro st h; simpa using h
  | cons op rest ih =>
      intro st h
      refine ih (applyConnOp st op) ?_
      cases op with
      | sub t w =>
          by_cases hcap : maxConnections ≤ st.active_connections.length
          · simpa [applyConnOp, subscribe, hcap] using h
          · have hlt : st.active_connections.length < maxConnections := by omega
            have := setEntry_length_le st.active_connections t w
            simp only [applyConnOp, subscribe, if_neg hcap, connect]
            omega
      | disc t =>
          by_cases hm : (lookupEntry st.active_connections t).isSome
          · have := (removeEntry_sublist st.active_connections t).length_le
            simp only [applyConnOp, disconnect, if_pos hm]
            omega
          · simpa [applyConnOp, disconnect, hm] using h

/-- C5. Connection-cap admission: across any sequence of subscribe and
disconnect operations from the initial state the number of registered
connections never exceeds the cap of 50, and a subscribe arriving when the
count is at (or beyond) the cap is rejected with the distinct
"too many connections" outcome, registering nothing and leaving the whole
state, counter included, unchanged. -/
theorem connection_cap_admission (st : ConnState) (t : String) (w : Nat) :
    (∀ ops : List ConnOp,
      (runConnOps ops).active_connections.length ≤ maxConnections) ∧
    (maxConnections ≤ st.active_connections.length →
      subscribe st t w = (st, .rejectedTooMany)) := by
  constructor
  · intro ops
    exact conn_length_le_foldl ops initConnState (by simp [initConnState, maxConnections])
  · intro h
    simp [subscribe, h]

/-- A manager state already holding 50 registered connections. -/
def fullConnState : ConnState :=
  { active_connections := List.replicate 50 ("t", 0), connection_count := 50 }

/-- Witness for C5 at concrete inputs: a run of two subscribes stays below
the cap, and a subscribe against a 50-entry state is rejected unchanged. -/
theorem connection_cap_admission_witness :
    (runConnOps [ConnOp.sub "a" 1, ConnOp.sub "b" 2]).active_connections.length ≤
      maxConnections ∧
    subscribe fullConnState "x" 7 = (fullConnState, .rejectedTooMany) :=
  ⟨(connection_cap_admission fullConnState "x" 7).1 [ConnOp.sub "a" 1, ConnOp.sub "b" 2],
   (connection_cap_admission fullConnState "x" 7).2 (by decide)⟩

theorem setEntry_length_of_found (l : List (String × Nat)) (k : String) (v : Nat)
    (h : (lookupEntry l k).isSome) : (setEntry l k v).length = l.length := by
  induction l with
  | nil => simp [lookupEntry] at h
  | cons e rest ih =>
      by_cases he : e.1 = k
      · simp [setEntry, he]
      · simp only [lookupEntry, if_neg he] at h
        simp [setEntry, he, ih h]

theorem setEntry_length_of_none (l : List (String × Nat)) (k : String) (v : Nat)
    (h : lookupEntry l k = none) : (setEntry l k v).length = l.length + 1 := by
  induction l with
  | nil => simp [setEntry]
  | cons e rest ih =>
      by_cases he : e.1 = k
      · simp [lookupEntry, he] at h
      · simp only [lookupEntry, if_neg he] at h
        simp [setEntry, he, ih h]

theorem lookupEntry_eq_none_of_not_mem (l : List (String × Nat)) (k : String)
    (h : k ∉ l.map Prod.fst) : lookupEntry l k = none := by
  induction l with
  | nil => simp [lookupEntry]
  | cons e rest ih =>
      simp only [List.map_cons, List.mem_cons] at h
      push_neg at h
      have he : e.1 ≠ k := fun hh => h.1 hh.symm
      simp [lookupEntry, he, ih h.2]

theorem removeEntry_of_none (l : List (String × Nat)) (k : String)
    (h : lookupEntry l k = none) : removeEntry l k = l := by
  induction l with
  | nil => simp [removeEntry]
  | cons e rest ih =>
      by_cases he : e.1 = k
      · simp [lookupEntry, he] at h
      · simp only [lookupEntry, if_neg he] at h
        simp [removeEntry, he, ih h]

theorem removeEntry_length_of_found (l : List (String × Nat)) (k : String)
    (hn : (l.map Prod.fst).Nodup) (h : (lookupEntry l k).isSome) :
    (removeEntry l k).length + 1 = l.length := by
  induction l with
  | nil => simp [lookupEntry] at h
  | cons e rest ih =>
      simp only [List.map_cons, List.nodup_cons] at hn
      by_cases he : e.1 = k
      · have hnone : lookupEntry rest k = none :=
          lookupEntry_eq_none_of_not_mem rest k (he ▸ hn.1)
        simp [removeEntry, he, removeEntry_of_none rest k hnone]
      · simp only [lookupEntry, if_neg he] at h
        simp only [removeEntry, if_neg he, List.length_cons]
        rw [← ih hn.2 h]

/-- Number of evicting subscribes performed while running the given
operation sequence from the given state: a subscribe that passes the
admission check and finds an existing connection for its trip evicts it. -/
def evictSteps (st : ConnState) : List ConnOp → Nat
  | [] => 0
  | op :: rest =>
      (match op with
       | .sub t _ =>
           if maxConnections ≤ st.active_connections.length then 0
           else if (lookupEntry st.active_connections t).isSome then 1 else 0
       | .disc _ => 0) + evictSteps (applyConnOp st op) rest

theorem conn_count_drift (ops : List ConnOp) :
    ∀ (st : ConnState) (d : Nat),
      (st.active_connections.map Prod.fst).Nodup →
      st.connection_count = st.active_connections.length + (d : Int) →
      (ops.foldl applyConnOp st).connection_count =
        (ops.foldl applyConnOp st).active_connections.length +
          ((d + evictSteps st ops : Nat) : Int) := by
  induction ops with
  | nil =>
      intro st d hn hc
      simpa [evictSteps] using hc
  | cons op rest ih =>
      intro st d hn hc
      have hn' := keys_nodup_applyConnOp st op hn
      rw [List.foldl_cons]
      cases op with
      | sub t w =>
          by_cases hcap : maxConnections ≤ st.active_connections.length
          · have happ : applyConnOp st (.sub t w) = st := by
              simp [applyConnOp, subscribe, hcap]
            have he : evictSteps st (ConnOp.sub t w :: rest) = evictSteps st rest := by
              simp [evictSteps, happ, hcap]
            rw [happ, he]
            exact ih st d hn hc
          · have happ : applyConnOp st (.sub t w) =
                { active_connections := setEntry st.active_connections t w,
                  connection_count := st.connection_count + 1 } := by
              simp [applyConnOp, subscribe, hcap, connect]
            by_cases hl : (lookupEntry st.active_connections t).isSome
            · have he : evictSteps st (ConnOp.sub t w :: rest) =
                  1 + evictSteps (applyConnOp st (.sub t w)) rest := by
                simp [evictSteps, hcap, hl]
              have hlen := setEntry_length_of_found st.active_connections t w hl
              have hc' : (applyConnOp st (.sub t w)).connection_count =
                  (applyConnOp st (.sub t w)).active_connections.length +
                    ((d + 1 : Nat) : Int) := by
                rw [happ]
                simp only [hlen]
                push_cast
                omega
              have := ih (applyConnOp st (.sub t w)) (d + 1) hn' hc'
              rw [he, this]
              push_cast
              ring
            · have he : evictSteps st (ConnOp.sub t w :: rest) =
                  evictSteps (applyConnOp st (.sub t w)) rest := by
                simp [evictSteps, hcap, hl]
              have hnone : lookupEntry st.active_connections t = none := by
                cases hx : lookupEntry st.active_connections t with
                | none => rfl
                | some v => rw [hx] at hl; simp at hl
              have hlen := setEntry_length_of_none st.active_connections t w hnone
              have hc' : (applyConnOp st (.sub t w)).connection_count =
                  (applyConnOp st (.sub t w)).active_connections.length + (d : Int) := by
                rw [happ]
                simp only [hlen]
                push_cast
                omega
              have := ih (applyConnOp st (.sub t w)) d hn' hc'
              rw [he, this]
      | disc t =>
          have he : evictSteps st (ConnOp.disc t :: rest) =
              evictSteps (applyConnOp st (.disc t)) rest := by
            simp [evictSteps]
          rw [he]
          by_cases hl : (lookupEntry st.active_connections t).isSome
          · have happ : applyConnOp st (.disc t) =
                { active_connections := removeEntry st.active_connections t,
                  connection_count := max 0 (st.connection_count - 1) } := by
              simp [applyConnOp, disconnect, hl]
            have hlen := removeEntry_length_of_found st.active_connections t hn hl
            have hc' : (applyConnOp st (.disc t)).connection_count =
                (applyConnOp st (.disc t)).active_connections.length + (d : Int) := by
              rw [happ]
              simp only []
              omega
            exact ih (applyConnOp st (.disc t)) d hn' hc'
          · have happ : applyConnOp st (.disc t) = st := by
              simp [applyConnOp, disconnect, hl]
            rw [happ] at hn' ⊢
            exact ih st d hn' hc

/-- C9. Connection-counter drift: from the initial state, the reported
total_connections is never negative, disconnect of an unregistered session
changes nothing, and after any operation sequence the total_connections
reported by get_connection_stats exceeds the number of registered sessions by
exactly the number of evicting subscribes performed (each eviction increments
the counter without a matching decrement). -/
theorem connection_counter_drift (ops : List ConnOp) (t : String) :
    0 ≤ (get_connection_stats (runConnOps ops)).total_connections ∧
    (get_connection_stats (runConnOps ops)).total_connections =
      (get_connection_stats (runConnOps ops)).active_trips.length +
        (evictSteps initConnState ops : Int) ∧
    (lookupEntry (runConnOps ops).active_connections t = none →
      applyConnOp (runConnOps ops) (.disc t) = runConnOps ops) := by
  have h := conn_count_drift ops initConnState 0 (by simp [initConnState])
    (by simp [initConnState])
  have hmain : (get_connection_stats (runConnOps ops)).total_connections =
      (get_connection_stats (runConnOps ops)).active_trips.length +
        (evictSteps initConnState ops : Int) := by
    simp only [get_connection_stats, runConnOps, List.length_map]
    simpa using h
  refine ⟨?_, hmain, ?_⟩
  · rw [hmain]
    positivity
  · intro hnone
    simp [applyConnOp, disconnect, hnone]

/-- Operation sequence with one evicting subscribe for session "a". -/
def evictOpsExample : List ConnOp := [.sub "a" 1, .sub "a" 2]

/-- Witness for C9 at a concrete input: after one eviction the reported
total (2) exceeds the registered sessions (1) by one, and disconnecting the
unregistered session "b" changes nothing. -/
theorem connection_counter_drift_witness :
    0 ≤ (get_connection_stats (runConnOps evictOpsExample)).total_connections ∧
    (get_connection_stats (runConnOps evictOpsExample)).total_connections =
      (get_connection_stats (runConnOps evictOpsExample)).active_trips.length +
        (evictSteps initConnState evictOpsExample : Int) ∧
    applyConnOp (runConnOps evictOpsExample) (.disc "b") = runConnOps evictOpsExample :=
  ⟨(connection_counter_drift evictOpsExample "b").1,
   (connection_counter_drift evictOpsExample "b").2.1,
   (connection_counter_drift evictOpsExample "b").2.2 (by decide)⟩

/-! ### services/realtime_service.py -/

structure TripData where
  plan : String
deriving DecidableEq, Repr

/-- State of RealtimeService: the monitored_trips dict (the stored plan
snapshot per trip; creation and last-update clock values are irrelevant to
the claims and omitted). The service keeps no store of published updates. -/
structure RealtimeState where
  monitored_trips : List (String × TripData)
deriving DecidableEq, Repr

/-- The membership test trip_id in self.monitored_trips. -/
def isMonitored (st : RealtimeState) (trip : String) : Bool :=
  st.monitored_trips.any (fun e => e.1 == trip)

structure RealtimeUpdate where
  trip_id : String
  update_type : String
  message : String
  severity : String
deriving DecidableEq, Repr

/-- RealtimeService.get_updates: an unmonitored trip yields the empty list,
and a monitored trip always yields the single hard-coded sample weather
update, built from nothing but the trip id. -/
def get_updates (st : RealtimeState) (trip : String) : List RealtimeUpdate :=
  if isMonitored st trip then
    [{ trip_id := trip, update_type := "weather",
       message := "Light rain expected tomorrow afternoon", severity := "info" }]
  else []

/-- C10. Canned update stream: get_updates returns the empty list exactly
when the trip is not monitored, and for a monitored trip it returns exactly
the one fixed weather update of severity "info" — the state carries no store
of published updates for get_updates to consult, so the result depends on
nothing but the membership test and the trip id. -/
theorem canned_update_stream (st : RealtimeState) (trip : String) :
    (get_updates st trip = [] ↔ isMonitored st trip = false) ∧
    (isMonitored st trip = true →
      get_updates st trip =
        [{ trip_id := trip, update_type := "weather",
           message := "Light rain expected tomorrow afternoon", severity := "info" }]) := by
  cases h : isMonitored st trip <;> simp [get_updates, h]

/-- Witness for C10 at a concrete input: one monitored trip "t1". -/
theorem canned_update_stream_witness :
    (get_updates { monitored_trips := [("t1", { plan := "p" })] } "t1" = [] ↔
      isMonitored { monitored_trips := [("t1", { plan := "p" })] } "t1" = false) ∧
    get_updates { monitored_trips := [("t1", { plan := "p" })] } "t1" =
      [{ trip_id := "t1", update_type := "weather",
         message := "Light rain expected tomorrow afternoon", severity := "info" }] :=
  ⟨(canned_update_stream { monitored_trips := [("t1", { plan := "p" })] } "t1").1,
   (canned_update_stream { monitored_trips := [("t1", { plan := "p" })] } "t1").2
     (by decide)⟩

/-- The dict values returned by RealtimeService.trigger_replanning. -/
inductive ReplanOutcome where
  | errorOutcome (msg : String)
  | triggered (status : String) (estimated_completion : String)
      (affected_activities : List String)
deriving DecidableEq, Repr

/-- RealtimeService.trigger_replanning, translated literally: an unknown trip
returns the error dict; a known trip returns the fixed
"replanning_triggered" dict. The body performs nothing else — its replanning
logic is an unfilled TODO comment — so no plan request is built, no
orchestrator is invoked, monitored_trips is not written, and nothing is
published; the embedding returns the state to make that absence provable. -/
def trigger_replanning (st : RealtimeState) (trip : String)
    (eventDetails : List (String × String)) : RealtimeState × ReplanOutcome :=
  if isMonitored st trip then
    (st, .triggered "replanning_triggered" "10 minutes" [])
  else
    (st, .errorOutcome "Trip not found")

/-- A service state monitoring trip "t1" with a stored prior plan. -/
def monitoredExample : RealtimeState :=
  { monitored_trips := [("t1", { plan := "plan0" })] }

/-- C6. The replan trigger is a stub: for every state, trip and event
details the service state (the stored plans included) is returned unchanged,
and on the monitored trip "t1" the result is the canned
"replanning_triggered" dict whatever the event details are — no fresh plan
request seeded from the stored plan, no orchestrator invocation, no plan
update and no published outcome exist in the body. The unknown-session half
of the claim does hold: an unknown trip gets the error outcome with no work
done. -/
theorem trigger_replanning_is_stub :
    (∀ (st : RealtimeState) (trip : String) (ev : List (String × String)),
      (trigger_replanning st trip ev).1 = st) ∧
    (∀ ev : List (String × String),
      (trigger_replanning monitoredExample "t1" ev).2 =
        .triggered "replanning_triggered" "10 minutes" []) ∧
    (∀ ev : List (String × String),
      (trigger_replanning monitoredExample "t2" ev).2 = .errorOutcome "Trip not found") := by
  refine ⟨?_, fun ev => rfl, fun ev => rfl⟩
  intro st trip ev
  unfold trigger_replanning
  split <;> rfl

end TripCraft
